import Mathlib

/-!
Verification of `examples/nlp/machine_translation/nmt_transformer_infer_ensemble.py`
(NeMo ensemble NMT inference script) against its natural-language specification.

The Python functions `filter_predicted_ids`, `nmt_postprocess`, `input_preprocess`
and the batching loop of `main` are shallowly embedded below.  Token ids are
modelled as `Int`, id matrices as `List (List Int)`, text as `String`, and the
external collaborators (tokenizers, text processors, the ensemble generator)
as function-valued fields of structures, exactly as the script consumes them.
-/

set_option autoImplicit false

namespace NMTInfer

/-- A tokenizer as consumed by the script: distinguished ids plus the two
conversion functions (`text_to_ids`, `ids_to_text`). -/
structure Tokenizer where
  vocab_size : Int
  unk_id : Int
  bos_id : Int
  eos_id : Int
  pad_id : Int
  text_to_ids : String → List Int
  ids_to_text : List Int → String

/-- An optional source/target text processor: `normalize` and `tokenize` on the
source side, `detokenize` on the target side. -/
structure TextProcessor where
  normalize : String → String
  tokenize : String → String
  detokenize : List String → String

/-- The slice of `MTEncDecModel` the script reads: the two tokenizers and the
two optional processors. -/
structure MTEncDecModel where
  encoder_tokenizer : Tokenizer
  decoder_tokenizer : Tokenizer
  source_processor : Option TextProcessor
  target_processor : Option TextProcessor

/-- One element of `ids[ids >= tokenizer.vocab_size] = tokenizer.unk_id`:
an id at or above the vocabulary size becomes `unk_id`, others are kept. -/
def clamp_id (tok : Tokenizer) (x : Int) : Int :=
  if tok.vocab_size ≤ x then tok.unk_id else x

/-- `filter_predicted_ids(tokenizer, ids)`: the value of the (2-D) id array
after the fancy-index assignment, which is also the returned value. -/
def filter_predicted_ids (tok : Tokenizer) (ids : List (List Int)) : List (List Int) :=
  ids.map (fun row => row.map (clamp_id tok))

/-- The call semantics of `filter_predicted_ids`: `ids[ids >= vocab_size] = unk_id`
is a numpy in-place fancy-index assignment, so after the call the caller's array
object holds the clamped contents, and `return ids` returns that same object.
First component: the returned value; second component: the contents of the
argument array after the call. -/
def filter_predicted_ids_call (tok : Tokenizer) (ids : List (List Int)) :
    List (List Int) × List (List Int) :=
  let r := filter_predicted_ids tok ids
  (r, r)

/-- The conversion part of `nmt_postprocess`: `ids_to_text` on each row, then the
optional `target_processor.detokenize(translation.split(' '))`. -/
def ids_to_translations (model : MTEncDecModel) (beam_results : List (List Int)) :
    List String :=
  let translations := beam_results.map model.decoder_tokenizer.ids_to_text
  match model.target_processor with
  | some p => translations.map (fun t => p.detokenize (t.splitOn " "))
  | none => translations

/-- `nmt_postprocess(beam_results, model)`: clamp out-of-vocabulary ids, then
convert each row to text and optionally detokenize. -/
def nmt_postprocess (model : MTEncDecModel) (beam_results : List (List Int)) :
    List String :=
  ids_to_translations model (filter_predicted_ids model.decoder_tokenizer beam_results)

/-- The call semantics of `nmt_postprocess`: it hands `beam_results` to
`filter_predicted_ids`, whose in-place assignment mutates the caller's array.
First component: the returned translations; second component: the contents of
the caller's `beam_results` array after the call. -/
def nmt_postprocess_call (model : MTEncDecModel) (beam_results : List (List Int)) :
    List String × List (List Int) :=
  (nmt_postprocess model beam_results,
   filter_predicted_ids model.decoder_tokenizer beam_results)

/-- The optional source-side processing of `input_preprocess`:
`txt = source_processor.normalize(txt); txt = source_processor.tokenize(txt)`
when a source processor is present. -/
def src_process (model : MTEncDecModel) (txt : String) : String :=
  match model.source_processor with
  | some p => p.tokenize (p.normalize txt)
  | none => txt

/-- The per-sentence part of `input_preprocess`: optional source processing,
then `text_to_ids`, then `[bos_id] + ids + [eos_id]`. -/
def wrap_ids (model : MTEncDecModel) (txt : String) : List Int :=
  model.encoder_tokenizer.bos_id ::
    (model.encoder_tokenizer.text_to_ids (src_process model txt) ++
     [model.encoder_tokenizer.eos_id])

/-- `max_len = max(len(txt) for txt in inputs)` on a nonempty `inputs`
(every wrapped row is nonempty, so the `0` seed is inert). -/
def batch_max_len (inputs : List (List Int)) : Nat :=
  (inputs.map List.length).foldl Nat.max 0

/-- One row of `src_ids_`: the wrapped ids written over a row of `pad_id`s of
width `max_len` (`src_ids_[i][: len(txt)] = txt`). -/
def pad_row (pad : Int) (max_len : Nat) (row : List Int) : List Int :=
  row ++ List.replicate (max_len - row.length) pad

/-- `input_preprocess(text, model)`: wrap every sentence, pad all rows to the
batch maximum with `pad_id`, and build the mask `src_ids_ != pad_id`.
On an empty sentence list, `max()` over an empty generator raises `ValueError`,
modelled as `none`. -/
def input_preprocess (model : MTEncDecModel) (text : List String) :
    Option (List (List Int) × List (List Bool)) :=
  let inputs := text.map (wrap_ids model)
  match inputs with
  | [] => none
  | _ =>
    let max_len := batch_max_len inputs
    let pad := model.encoder_tokenizer.pad_id
    let src_ids := inputs.map (pad_row pad max_len)
    let src_mask := src_ids.map (fun row => row.map (fun x => x != pad))
    some (src_ids, src_mask)

/-- One of the four `print(...)` diagnostics emitted by `main` when a batch's
translation count differs from its sentence count. -/
inductive PrintEvent where
  | pnat : Nat → PrintEvent
  | pstrs : List String → PrintEvent
  deriving DecidableEq

/-- The reading/batching loop of `main`: accumulate stripped lines into
`src_text`; on reaching `batch_size`, translate the batch, print the four
diagnostics if the result count mismatches, and append the results to
`tgt_text`; after the loop, translate and append any leftover partial batch
(with no mismatch check).  Returns the accumulated `tgt_text` and the emitted
prints. -/
def translate_loop (tb : List String → List String) (batch_size : Nat)
    (strip : String → String) :
    List String → List String → List String × List PrintEvent
  | src_text, [] =>
    if src_text.length > 0 then (tb src_text, []) else ([], [])
  | src_text, line :: rest =>
    let src' := src_text ++ [strip line]
    if src'.length = batch_size then
      let res := tb src'
      let ev : List PrintEvent :=
        if res.length = src'.length then []
        else [.pnat res.length, .pnat src'.length, .pstrs res, .pstrs src']
      let r := translate_loop tb batch_size strip [] rest
      (res ++ r.fst, ev ++ r.snd)
    else
      translate_loop tb batch_size strip src' rest

/-- The translation of one batch as `main` performs it: `input_preprocess`,
the ensemble generator on the id matrix and mask, then `nmt_postprocess`.
The generator is an external collaborator, passed as the function `gen`. -/
def translate_batch (model : MTEncDecModel)
    (gen : List (List Int) → List (List Bool) → List (List Int))
    (batch : List String) : List String :=
  match input_preprocess model batch with
  | none => []
  | some (src, mask) => nmt_postprocess model (gen src mask)

/-- `main`'s whole translation phase on the list of input lines. -/
def main_translate (model : MTEncDecModel)
    (gen : List (List Int) → List (List Bool) → List (List Int))
    (batch_size : Nat) (strip : String → String) (lines : List String) :
    List String × List PrintEvent :=
  translate_loop (translate_batch model gen) batch_size strip [] lines

/-- The output phase of `main`: `tgt_f.write(line + "\n")` for each
accumulated translation, in order. -/
def write_lines (tgt_text : List String) : List String :=
  tgt_text.map (fun l => l ++ "\n")

/-- Modelled from the spec: the constructor of
`EnsembleBeamSearchSequenceGenerator` (repository code not under `src/`)
rejects an invalid configuration — a non-positive beam size or a non-positive
maximum sequence length — eagerly, at construction time. -/
def mk_ensemble_generator_config (beam_size max_sequence_length : Int) :
    Except String (Int × Int) :=
  if beam_size ≤ 0 then .error "beam_size must be positive"
  else if max_sequence_length ≤ 0 then .error "max_sequence_length must be positive"
  else .ok (beam_size, max_sequence_length)

/-- `main` end to end: the generator is constructed (with the hard-coded
`max_sequence_length=512`) before the input file is read; only then does the
translation loop run and the output lines get written. -/
def main_run (beam_size : Int) (model : MTEncDecModel)
    (gen : List (List Int) → List (List Bool) → List (List Int))
    (batch_size : Nat) (strip : String → String) (lines : List String) :
    Except String (List String) :=
  match mk_ensemble_generator_config beam_size 512 with
  | .error e => .error e
  | .ok _ => .ok (write_lines (main_translate model gen batch_size strip lines).fst)

/-- A concrete tokenizer for witnesses and counterexamples: vocabulary size 5,
pad 0, bos 1, eos 2, unk 3; every character tokenizes to id 4; every id
sequence renders as the text `t`. -/
def tok₀ : Tokenizer where
  vocab_size := 5
  unk_id := 3
  bos_id := 1
  eos_id := 2
  pad_id := 0
  text_to_ids := fun s => List.replicate s.length 4
  ids_to_text := fun _ => "t"

/-- A concrete model built from `tok₀`, with no source/target processors. -/
def model₀ : MTEncDecModel where
  encoder_tokenizer := tok₀
  decoder_tokenizer := tok₀
  source_processor := none
  target_processor := none

/-- A tokenizer whose `text_to_ids` emits the pad id itself (id 0) for any
nonempty text — legal for the script, since nothing constrains the tokenizer's
output ids. -/
def tok_pad : Tokenizer :=
  { tok₀ with text_to_ids := fun _ => [0] }

/-- A model whose encoder tokenizer can emit the pad id as a real token id. -/
def model_pad : MTEncDecModel :=
  { model₀ with encoder_tokenizer := tok_pad }

/-- A concrete stand-in ensemble generator for witnesses: it returns one output
row per input row (here, the input rows themselves). -/
def gen₀ : List (List Int) → List (List Bool) → List (List Int) :=
  fun src _ => src

/-! ### Helper lemmas -/

theorem forall₂_map_self {α β : Type} (R : α → β → Prop) (f : α → β) :
    ∀ l : List α, (∀ a ∈ l, R a (f a)) → List.Forall₂ R l (l.map f)
  | [], _ => List.Forall₂.nil
  | a :: l, h =>
    List.Forall₂.cons (h a (List.mem_cons_self a l))
      (forall₂_map_self R f l fun x hx => h x (List.mem_cons_of_mem a hx))

theorem clamp_id_spec (tok : Tokenizer) (a : Int) :
    (tok.vocab_size ≤ a → clamp_id tok a = tok.unk_id) ∧
    (a < tok.vocab_size → clamp_id tok a = a) := by
  unfold clamp_id
  constructor
  · intro h; rw [if_pos h]
  · intro h; rw [if_neg (not_le.mpr h)]

theorem clamp_id_idem (tok : Tokenizer) (a : Int) :
    clamp_id tok (clamp_id tok a) = clamp_id tok a := by
  unfold clamp_id
  by_cases h : tok.vocab_size ≤ a
  · rw [if_pos h]
    by_cases hu : tok.vocab_size ≤ tok.unk_id
    · rw [if_pos hu]
    · rw [if_neg hu]
  · rw [if_neg h, if_neg h]

theorem foldl_max_init_le : ∀ (l : List Nat) (a : Nat), a ≤ l.foldl Nat.max a
  | [], _ => le_refl _
  | b :: l, a =>
    le_trans (Nat.le_max_left a b) (foldl_max_init_le l (Nat.max a b))

theorem le_foldl_max : ∀ (l : List Nat) (a x : Nat), x ∈ l → x ≤ l.foldl Nat.max a
  | b :: l, a, x, h => by
    rcases List.mem_cons.mp h with h' | h'
    · subst h'
      exact le_trans (Nat.le_max_right a x) (foldl_max_init_le l (Nat.max a x))
    · exact le_foldl_max l (Nat.max a b) x h'

/-- Every wrapped row's length is bounded by the batch maximum. -/
theorem length_le_batch_max_len {row : List Int} {inputs : List (List Int)}
    (h : row ∈ inputs) : row.length ≤ batch_max_len inputs :=
  le_foldl_max _ 0 _ (List.mem_map_of_mem List.length h)

theorem pad_row_length {pad : Int} {max_len : Nat} {row : List Int}
    (h : row.length ≤ max_len) : (pad_row pad max_len row).length = max_len := by
  unfold pad_row
  rw [List.length_append, List.length_replicate]
  omega

theorem map_bne_eq_replicate_true {p : Int} :
    ∀ l : List Int, (∀ x ∈ l, x ≠ p) →
      l.map (fun x => x != p) = List.replicate l.length true
  | [], _ => rfl
  | x :: l, h => by
    rw [List.map_cons, List.length_cons, List.replicate_succ,
      map_bne_eq_replicate_true l (fun y hy => h y (List.mem_cons_of_mem x hy))]
    have hx : (x != p) = true := bne_iff_ne.mpr (h x (List.mem_cons_self x l))
    rw [hx]

theorem count_true_replicate_append (n k : Nat) :
    (List.replicate n true ++ List.replicate k false).count true = n := by
  rw [List.count_append, List.count_replicate_self, List.count_eq_zero.mpr, Nat.add_zero]
  intro hmem
  exact absurd (List.eq_of_mem_replicate hmem) (by decide)

/-- `input_preprocess` on a nonempty sentence list: the id matrix is the
wrapped rows padded to the batch maximum, the mask is `!= pad_id` applied
elementwise to the id matrix. -/
theorem input_preprocess_cons (model : MTEncDecModel) (t : String) (ts : List String) :
    input_preprocess model (t :: ts) =
      some (((t :: ts).map (wrap_ids model)).map
              (pad_row model.encoder_tokenizer.pad_id
                (batch_max_len ((t :: ts).map (wrap_ids model)))),
            (((t :: ts).map (wrap_ids model)).map
              (pad_row model.encoder_tokenizer.pad_id
                (batch_max_len ((t :: ts).map (wrap_ids model))))).map
              (fun row => row.map (fun x => x != model.encoder_tokenizer.pad_id))) :=
  rfl

/-! ### Claims -/

/-- C1: post-processing clamps every id at or above the vocabulary size to the
unknown-token id before any id reaches `ids_to_text`, leaves every id strictly
below the vocabulary size unchanged, and is a total function (it cannot raise).
The first conjunct records that the text conversion consumes exactly the
clamped matrix; the second characterizes the clamp elementwise. -/
theorem c1_postprocess_clamps_before_conversion (model : MTEncDecModel)
    (beam_results : List (List Int)) :
    nmt_postprocess model beam_results =
      ids_to_translations model
        (filter_predicted_ids model.decoder_tokenizer beam_results) ∧
    List.Forall₂
      (List.Forall₂ fun a b =>
        (model.decoder_tokenizer.vocab_size ≤ a → b = model.decoder_tokenizer.unk_id) ∧
        (a < model.decoder_tokenizer.vocab_size → b = a))
      beam_results
      (filter_predicted_ids model.decoder_tokenizer beam_results) := by
  refine ⟨rfl, ?_⟩
  apply forall₂_map_self
  intro row _
  apply forall₂_map_self
  intro a _
  exact clamp_id_spec model.decoder_tokenizer a

/-- Witness for C1: the clamp characterization applied to the concrete model
`model₀` (vocabulary size 5, unk id 3) on the row `[10, 4]`. -/
theorem c1_witness :
    List.Forall₂
      (List.Forall₂ fun a b => ((5 : Int) ≤ a → b = 3) ∧ (a < 5 → b = a))
      [[10, 4]] (filter_predicted_ids model₀.decoder_tokenizer [[10, 4]]) :=
  (c1_postprocess_clamps_before_conversion model₀ [[10, 4]]).2

/-- C2: for every nonempty sentence list, each produced row is the bos id,
then the sentence's token ids, then the eos id, then pad ids filling up to the
batch maximum wrapped length; every row's final length equals that batch
maximum. -/
theorem c2_input_preprocess_row_structure (model : MTEncDecModel)
    (text : List String) (h : text ≠ []) :
    ∃ src mask, input_preprocess model text = some (src, mask) ∧
      src = text.map (fun t =>
        (model.encoder_tokenizer.bos_id ::
          (model.encoder_tokenizer.text_to_ids (src_process model t) ++
           [model.encoder_tokenizer.eos_id])) ++
        List.replicate
          (batch_max_len (text.map (wrap_ids model)) - (wrap_ids model t).length)
          model.encoder_tokenizer.pad_id) ∧
      ∀ row ∈ src, row.length = batch_max_len (text.map (wrap_ids model)) := by
  cases text with
  | nil => exact absurd rfl h
  | cons t ts =>
    refine ⟨_, _, input_preprocess_cons model t ts, ?_, ?_⟩
    · rw [List.map_map]
      rfl
    · intro row hrow
      rw [List.map_map] at hrow
      rcases List.mem_map.mp hrow with ⟨t', ht', rfl⟩
      exact pad_row_length (length_le_batch_max_len (List.mem_map_of_mem _ ht'))

/-- Witness for C2: the row structure instantiated at `model₀` on the concrete
batch `["ab", ""]`, with the nonemptiness hypothesis discharged. -/
theorem c2_witness :
    ∃ src mask, input_preprocess model₀ ["ab", ""] = some (src, mask) ∧
      src = (["ab", ""] : List String).map (fun t =>
        (model₀.encoder_tokenizer.bos_id ::
          (model₀.encoder_tokenizer.text_to_ids (src_process model₀ t) ++
           [model₀.encoder_tokenizer.eos_id])) ++
        List.replicate
          (batch_max_len ((["ab", ""] : List String).map (wrap_ids model₀)) -
            (wrap_ids model₀ t).length)
          model₀.encoder_tokenizer.pad_id) ∧
      ∀ row ∈ src,
        row.length = batch_max_len ((["ab", ""] : List String).map (wrap_ids model₀)) :=
  c2_input_preprocess_row_structure model₀ ["ab", ""] (by decide)

/-- Counterexample to C3 as stated: with a tokenizer whose `text_to_ids` emits
the pad id (0) as a real token id, the mask of the single sentence `"x"` is
false at a real-token position, so its count of true entries (2) is not the
true wrapped length (3).  The mask is `src_ids_ != pad_id`, which cannot
distinguish a real token equal to the pad id from padding. -/
theorem c3_counterexample :
    input_preprocess model_pad ["x"] = some ([[1, 0, 2]], [[true, false, true]]) ∧
    (wrap_ids model_pad "x").length = 3 ∧
    [true, false, true].count true = 2 := by
  decide

/-- C3 (amended): provided bos, eos and every token id of each sentence differ
from the pad id, the mask row of sentence `t` is `true` exactly on the first
`(wrap_ids model t).length` positions (the real tokens) and `false` on the
padded remainder, so each row's count of true entries is the sentence's true
wrapped length. -/
theorem c3_mask_marks_real_tokens (model : MTEncDecModel) (text : List String)
    (h : text ≠ [])
    (hpad : ∀ t ∈ text, ∀ x ∈ wrap_ids model t, x ≠ model.encoder_tokenizer.pad_id) :
    ∃ src mask, input_preprocess model text = some (src, mask) ∧
      mask = text.map (fun t =>
        List.replicate (wrap_ids model t).length true ++
        List.replicate
          (batch_max_len (text.map (wrap_ids model)) - (wrap_ids model t).length)
          false) ∧
      mask.map (List.count true) = text.map (fun t => (wrap_ids model t).length) := by
  cases text with
  | nil => exact absurd rfl h
  | cons t ts =>
    have hmask :
        ((((t :: ts).map (wrap_ids model)).map
            (pad_row model.encoder_tokenizer.pad_id
              (batch_max_len ((t :: ts).map (wrap_ids model))))).map
          (fun row => row.map (fun x => x != model.encoder_tokenizer.pad_id))) =
        (t :: ts).map (fun t' =>
          List.replicate (wrap_ids model t').length true ++
          List.replicate
            (batch_max_len ((t :: ts).map (wrap_ids model)) - (wrap_ids model t').length)
            false) := by
      rw [List.map_map, List.map_map]
      apply List.map_congr_left
      intro t' ht'
      show (pad_row model.encoder_tokenizer.pad_id _ (wrap_ids model t')).map
          (fun x => x != model.encoder_tokenizer.pad_id) = _
      unfold pad_row
      rw [List.map_append, map_bne_eq_replicate_true _ (hpad t' ht'),
        List.map_replicate, bne_self_eq_false]
    refine ⟨_, _, input_preprocess_cons model t ts, hmask, ?_⟩
    rw [hmask, List.map_map]
    apply List.map_congr_left
    intro t' _
    exact count_true_replicate_append _ _

/-- Witness for C3 (amended): instantiated at `model₀` on the batch
`["ab", ""]`, whose wrapped ids never equal the pad id. -/
theorem c3_witness :
    ∃ src mask, input_preprocess model₀ ["ab", ""] = some (src, mask) ∧
      mask = (["ab", ""] : List String).map (fun t =>
        List.replicate (wrap_ids model₀ t).length true ++
        List.replicate
          (batch_max_len ((["ab", ""] : List String).map (wrap_ids model₀)) -
            (wrap_ids model₀ t).length)
          false) ∧
      mask.map (List.count true) =
        (["ab", ""] : List String).map (fun t => (wrap_ids model₀ t).length) :=
  c3_mask_marks_real_tokens model₀ ["ab", ""] (by decide) (by decide)

/-- When each batch is translated to one output per sentence (`tb b = b.map f`),
the reading/batching loop produces exactly the per-line translations, in input
order, regardless of how the lines fall into batches. -/
theorem translate_loop_map_fst (f : String → String) (bs : Nat)
    (strip : String → String) (tb : List String → List String)
    (htb : ∀ b, tb b = b.map f) :
    ∀ (lines src : List String),
      (translate_loop tb bs strip src lines).fst = (src ++ lines.map strip).map f := by
  intro lines
  induction lines with
  | nil =>
    intro src
    simp only [translate_loop]
    by_cases hs : src.length > 0
    · rw [if_pos hs, htb]
      simp
    · have hnil : src = [] := List.length_eq_zero.mp (Nat.eq_zero_of_not_pos hs)
      rw [if_neg hs, hnil]
      rfl
  | cons line rest ih =>
    intro src
    simp only [translate_loop]
    by_cases hlen : (src ++ [strip line]).length = bs
    · rw [if_pos hlen, htb, ih []]
      simp
    · rw [if_neg hlen, ih (src ++ [strip line])]
      simp

/-- Under `model₀` and `gen₀`, every batch translates to one `"t"` per
sentence: the concrete instance of a per-sentence batch translator. -/
theorem gen₀_translate_batch :
    ∀ b, translate_batch model₀ gen₀ b = b.map (fun _ => "t") := by
  intro b
  cases b with
  | nil => rfl
  | cons t ts =>
    have e : translate_batch model₀ gen₀ (t :: ts) =
        ((((t :: ts).map (wrap_ids model₀)).map
            (pad_row model₀.encoder_tokenizer.pad_id
              (batch_max_len ((t :: ts).map (wrap_ids model₀))))).map
          (fun row => row.map (clamp_id model₀.decoder_tokenizer))).map
          (fun _ => "t") := rfl
    rw [e, List.map_map, List.map_map, List.map_map]
    exact List.map_congr_left fun x _ => rfl

/-- C4: if each batch yields one translation per sentence, the CLI pipeline
emits exactly one newline-terminated output line per input line, in input
order: the written lines are precisely the per-line translations, each with a
trailing newline. -/
theorem c4_one_output_line_per_input_line (model : MTEncDecModel)
    (gen : List (List Int) → List (List Bool) → List (List Int))
    (batch_size : Nat) (strip : String → String) (lines : List String)
    (f : String → String)
    (htb : ∀ b, translate_batch model gen b = b.map f) :
    write_lines (main_translate model gen batch_size strip lines).fst =
      lines.map (fun l => f (strip l) ++ "\n") ∧
    (write_lines (main_translate model gen batch_size strip lines).fst).length =
      lines.length ∧
    ∀ s ∈ write_lines (main_translate model gen batch_size strip lines).fst,
      ∃ t, s = t ++ "\n" := by
  have h1 : (main_translate model gen batch_size strip lines).fst =
      (lines.map strip).map f := by
    have := translate_loop_map_fst f batch_size strip _ htb lines []
    simpa [main_translate] using this
  have h2 : write_lines (main_translate model gen batch_size strip lines).fst =
      lines.map (fun l => f (strip l) ++ "\n") := by
    rw [write_lines, h1, List.map_map, List.map_map]
    rfl
  refine ⟨h2, ?_, ?_⟩
  · rw [h2, List.length_map]
  · intro s hs
    rw [h2] at hs
    rcases List.mem_map.mp hs with ⟨l, _, rfl⟩
    exact ⟨f (strip l), rfl⟩

/-- Witness for C4: three lines, batch size 2 (one full batch plus a leftover),
the concrete model `model₀` and generator `gen₀`. -/
theorem c4_witness :
    write_lines (main_translate model₀ gen₀ 2 (fun s => s) ["a", "b", "c"]).fst =
      (["a", "b", "c"] : List String).map
        (fun l => (fun _ => "t") ((fun s => s) l) ++ "\n") ∧
    (write_lines (main_translate model₀ gen₀ 2 (fun s => s) ["a", "b", "c"]).fst).length =
      (["a", "b", "c"] : List String).length ∧
    ∀ s ∈ write_lines (main_translate model₀ gen₀ 2 (fun s => s) ["a", "b", "c"]).fst,
      ∃ t, s = t ++ "\n" :=
  c4_one_output_line_per_input_line model₀ gen₀ 2 (fun s => s) ["a", "b", "c"]
    (fun _ => "t") gen₀_translate_batch

/-- A batch strictly smaller than `batch_size` is only processed by the
leftover branch after the loop: its translations are appended with no
mismatch check and no prints. -/
theorem translate_loop_lt (tb : List String → List String) (bs : Nat)
    (strip : String → String) :
    ∀ (lines src : List String),
      src.length + lines.length < bs → 0 < src.length + lines.length →
      translate_loop tb bs strip src lines = (tb (src ++ lines.map strip), []) := by
  intro lines
  induction lines with
  | nil =>
    intro src h hpos
    simp only [translate_loop]
    rw [if_pos (by simpa using hpos)]
    simp
  | cons line rest ih =>
    intro src h hpos
    have hlen : (src ++ [strip line]).length ≠ bs := by
      rw [List.length_append, List.length_singleton]
      rw [List.length_cons] at h
      omega
    have h1 : (src ++ [strip line]).length + rest.length < bs := by
      rw [List.length_append, List.length_singleton]
      rw [List.length_cons] at h
      omega
    have h2 : 0 < (src ++ [strip line]).length + rest.length := by
      rw [List.length_append, List.length_singleton]
      omega
    simp only [translate_loop]
    rw [if_neg hlen, ih (src ++ [strip line]) h1 h2]
    simp

/-- A batch that exactly fills `batch_size` is translated inside the loop:
its translations are appended unconditionally, and the four diagnostic prints
are emitted exactly when the translation count mismatches the batch size. -/
theorem translate_loop_exact (tb : List String → List String) (bs : Nat)
    (strip : String → String) :
    ∀ (lines src : List String), lines ≠ [] → src.length + lines.length = bs →
      translate_loop tb bs strip src lines =
        (tb (src ++ lines.map strip),
         if (tb (src ++ lines.map strip)).length = bs then []
         else [.pnat (tb (src ++ lines.map strip)).length, .pnat bs,
               .pstrs (tb (src ++ lines.map strip)), .pstrs (src ++ lines.map strip)]) := by
  intro lines
  induction lines with
  | nil =>
    intro src hne _
    exact absurd rfl hne
  | cons line rest ih =>
    intro src hne htot
    by_cases hlen : (src ++ [strip line]).length = bs
    · have hrest : rest = [] := by
        rw [List.length_append, List.length_singleton] at hlen
        rw [List.length_cons] at htot
        exact List.length_eq_zero.mp (by omega)
      subst hrest
      simp only [translate_loop]
      rw [if_pos hlen, if_neg (by simp : ¬([] : List String).length > 0)]
      simp only [List.append_nil, hlen, List.map_cons, List.map_nil]
    · have hrest : rest ≠ [] := by
        intro hr
        subst hr
        rw [List.length_append, List.length_singleton] at hlen
        rw [List.length_cons, List.length_nil] at htot
        omega
      have htot' : (src ++ [strip line]).length + rest.length = bs := by
        rw [List.length_append, List.length_singleton]
        rw [List.length_cons] at htot
        omega
      simp only [translate_loop]
      rw [if_neg hlen, ih (src ++ [strip line]) hrest htot']
      simp

/-- Counterexample to C5 as stated: a final partial batch (one line, batch
size 2) whose translation count (2) mismatches its sentence count (1) is
appended to the output with no print and no failure — the mismatch is handled
silently, not fatally. -/
theorem c5_counterexample :
    main_translate model₀ (fun _ _ => [[4], [4]]) 2 (fun s => s) ["a"] =
      (["t", "t"], []) ∧
    (["t", "t"] : List String).length ≠ (["a"] : List String).length :=
  ⟨rfl, by decide⟩

/-- C5 (amended): the mismatched translations of a batch are always appended
to the output (never dropped, never fatal); for a full-size batch a mismatch
additionally emits the four diagnostic prints, while the final partial batch
is appended with no check and no prints at all. -/
theorem c5_mismatch_printed_not_fatal (tb : List String → List String) (bs : Nat)
    (strip : String → String) (lines : List String)
    (hne : lines ≠ []) (hle : lines.length ≤ bs) :
    (translate_loop tb bs strip [] lines).fst = tb (lines.map strip) ∧
    (lines.length = bs → (tb (lines.map strip)).length ≠ bs →
      (translate_loop tb bs strip [] lines).snd ≠ []) ∧
    (lines.length < bs → (translate_loop tb bs strip [] lines).snd = []) := by
  by_cases heq : lines.length = bs
  · have h := translate_loop_exact tb bs strip lines [] hne (by simpa using heq)
    simp only [List.nil_append] at h
    refine ⟨by rw [h], ?_, ?_⟩
    · intro _ hmis
      rw [h]
      simp only [if_neg hmis]
      simp
    · intro hlt
      exact absurd heq (Nat.ne_of_lt hlt)
  · have hlt : lines.length < bs := lt_of_le_of_ne hle heq
    have h := translate_loop_lt tb bs strip lines [] (by simpa using hlt)
      (by simpa using List.length_pos.mpr hne)
    simp only [List.nil_append] at h
    exact ⟨by rw [h], fun heq' => absurd heq' heq, fun _ => by rw [h]⟩

/-- Witness for C5 (amended): one line, batch size 1 (a full batch), a batch
translator returning two translations for it — the mismatch is printed but the
two translations are still appended. -/
theorem c5_witness :
    (translate_loop (fun _ => ["x", "y"]) 1 (fun s => s) [] ["a"]).fst =
      (fun _ => ["x", "y"]) ((["a"] : List String).map (fun s => s)) ∧
    ((["a"] : List String).length = 1 →
      ((fun _ => ["x", "y"]) ((["a"] : List String).map (fun s => s)) :
        List String).length ≠ 1 →
      (translate_loop (fun _ => ["x", "y"]) 1 (fun s => s) [] ["a"]).snd ≠ []) ∧
    ((["a"] : List String).length < 1 →
      (translate_loop (fun _ => ["x", "y"]) 1 (fun s => s) [] ["a"]).snd = []) :=
  c5_mismatch_printed_not_fatal (fun _ => ["x", "y"]) 1 (fun s => s) ["a"]
    (by decide) (by decide)

/-- Counterexample to C6 as stated: the clamp `ids[ids >= vocab_size] = unk_id`
is an in-place numpy assignment, so on the out-of-vocabulary input `[[10]]`
(vocabulary size 5, unk id 3) the array passed to post-processing holds
`[[3]]`, not its original contents, after the call. -/
theorem c6_counterexample :
    (nmt_postprocess_call model₀ [[10]]).snd = [[3]] ∧
    ([[(3 : Int)]] : List (List Int)) ≠ [[10]] := by
  decide

/-- C6 (amended): post-processing is a deterministic function of its inputs
with no retries, but the clamp mutates the input array in place: after the
call the array holds the clamped ids, and it is unchanged when every id is
already strictly below the vocabulary size. -/
theorem c6_postprocess_deterministic_but_mutates (model : MTEncDecModel)
    (beam_results : List (List Int)) :
    nmt_postprocess_call model beam_results =
      (nmt_postprocess model beam_results,
       filter_predicted_ids model.decoder_tokenizer beam_results) ∧
    ((∀ row ∈ beam_results, ∀ x ∈ row, x < model.decoder_tokenizer.vocab_size) →
      (nmt_postprocess_call model beam_results).snd = beam_results) := by
  refine ⟨rfl, fun hin => ?_⟩
  show filter_predicted_ids model.decoder_tokenizer beam_results = beam_results
  unfold filter_predicted_ids
  conv_rhs => rw [← List.map_id beam_results]
  apply List.map_congr_left
  intro row hrow
  show row.map (clamp_id model.decoder_tokenizer) = row
  conv_rhs => rw [← List.map_id row]
  apply List.map_congr_left
  intro x hx
  exact (clamp_id_spec model.decoder_tokenizer x).2 (hin row hrow x hx)

/-- Witness for C6 (amended): an in-vocabulary array is left unchanged by the
call. -/
theorem c6_witness :
    (∀ row ∈ ([[4]] : List (List Int)), ∀ x ∈ row,
      x < model₀.decoder_tokenizer.vocab_size) ∧
    (nmt_postprocess_call model₀ [[4]]).snd = [[4]] :=
  ⟨by decide, (c6_postprocess_deterministic_but_mutates model₀ [[4]]).2 (by decide)⟩

/-- Counterexample to C7 as stated: the empty sentence produces the two-token
sequence `[bos, eos]`, not a single-token sequence. -/
theorem c7_counterexample :
    input_preprocess model₀ [""] = some ([[1, 2]], [[true, true]]) ∧
    (wrap_ids model₀ "").length = 2 ∧ (2 : Nat) ≠ 1 := by
  decide

/-- C7 (amended): a sentence whose (processed) text tokenizes to no ids is
wrapped to exactly the two-token sequence `[bos_id, eos_id]`. -/
theorem c7_empty_sentence_bos_eos (model : MTEncDecModel) (txt : String)
    (h : model.encoder_tokenizer.text_to_ids (src_process model txt) = []) :
    wrap_ids model txt =
      [model.encoder_tokenizer.bos_id, model.encoder_tokenizer.eos_id] ∧
    (wrap_ids model txt).length = 2 := by
  unfold wrap_ids
  rw [h]
  exact ⟨rfl, rfl⟩

/-- Witness for C7 (amended): the empty sentence under `model₀`. -/
theorem c7_witness :
    wrap_ids model₀ "" =
      [model₀.encoder_tokenizer.bos_id, model₀.encoder_tokenizer.eos_id] ∧
    (wrap_ids model₀ "").length = 2 :=
  c7_empty_sentence_bos_eos model₀ "" (by decide)

/-- C8: an invalid configuration (non-positive beam size or non-positive
maximum sequence length) is rejected by the generator constructor, and since
`main` constructs the generator before reading any input, a non-positive beam
size makes the whole run fail with the same error no matter what the input
lines are — no sentence is ever decoded. -/
theorem c8_config_rejected_eagerly (b m : Int) (model : MTEncDecModel)
    (gen : List (List Int) → List (List Bool) → List (List Int))
    (bs : Nat) (strip : String → String)
    (h : b ≤ 0 ∨ m ≤ 0) :
    (∃ e, mk_ensemble_generator_config b m = Except.error e) ∧
    (b ≤ 0 → ∀ lines,
      main_run b model gen bs strip lines = main_run b model gen bs strip [] ∧
      ∃ e, main_run b model gen bs strip lines = Except.error e) := by
  constructor
  · unfold mk_ensemble_generator_config
    rcases h with hb | hm
    · exact ⟨_, by rw [if_pos hb]⟩
    · by_cases hb : b ≤ 0
      · exact ⟨_, by rw [if_pos hb]⟩
      · exact ⟨_, by rw [if_neg hb, if_pos hm]⟩
  · intro hb lines
    unfold main_run mk_ensemble_generator_config
    rw [if_pos hb]
    exact ⟨rfl, ⟨_, rfl⟩⟩

/-- Witness for C8: beam size 0 makes the concrete run fail before decoding. -/
theorem c8_witness :
    ((0 : Int) ≤ 0 ∨ (512 : Int) ≤ 0) ∧
    ∃ e, main_run 0 model₀ gen₀ 2 (fun s => s) ["a"] = Except.error e :=
  ⟨Or.inl (le_refl 0),
   ((c8_config_rejected_eagerly 0 512 model₀ gen₀ 2 (fun s => s)
      (Or.inl (le_refl 0))).2 (le_refl 0) ["a"]).2⟩

/-- C9: the pipeline is deterministic — two runs on equal input lines with the
same model and generator produce equal outputs — and re-running
post-processing on the array mutated in place by a previous run yields the
same translations (the clamp is idempotent). -/
theorem c9_pipeline_deterministic (model : MTEncDecModel)
    (gen : List (List Int) → List (List Bool) → List (List Int))
    (bs : Nat) (strip : String → String) (lines lines' : List String)
    (h : lines = lines') :
    write_lines (main_translate model gen bs strip lines).fst =
      write_lines (main_translate model gen bs strip lines').fst ∧
    ∀ beam_results,
      nmt_postprocess model (nmt_postprocess_call model beam_results).snd =
        nmt_postprocess model beam_results := by
  constructor
  · rw [h]
  · intro br
    show nmt_postprocess model (filter_predicted_ids model.decoder_tokenizer br) = _
    unfold nmt_postprocess
    congr 1
    unfold filter_predicted_ids
    rw [List.map_map]
    apply List.map_congr_left
    intro row _
    show (row.map (clamp_id model.decoder_tokenizer)).map
        (clamp_id model.decoder_tokenizer) = row.map (clamp_id model.decoder_tokenizer)
    rw [List.map_map]
    apply List.map_congr_left
    intro x _
    exact clamp_id_idem model.decoder_tokenizer x

/-- Witness for C9 at a concrete run. -/
theorem c9_witness :
    write_lines (main_translate model₀ gen₀ 2 (fun s => s) ["a"]).fst =
      write_lines (main_translate model₀ gen₀ 2 (fun s => s) ["a"]).fst :=
  (c9_pipeline_deterministic model₀ gen₀ 2 (fun s => s) ["a"] ["a"] rfl).1

/-- C10: input preparation fails (Python's `max()` over an empty generator
raises `ValueError`, modelled as `none`) on an empty sentence list, and on any
nonempty list it succeeds with a nonempty (never zero-row) id matrix. -/
theorem c10_empty_batch_fails (model : MTEncDecModel) (text : List String) :
    input_preprocess model [] = none ∧
    (text ≠ [] → ∃ src mask,
      input_preprocess model text = some (src, mask) ∧ src ≠ []) := by
  refine ⟨rfl, fun h => ?_⟩
  cases text with
  | nil => exact absurd rfl h
  | cons t ts => exact ⟨_, _, input_preprocess_cons model t ts, by simp⟩

/-- Witness for C10: the empty batch fails, the singleton batch succeeds. -/
theorem c10_witness :
    input_preprocess model₀ [] = none ∧
    ∃ src mask, input_preprocess model₀ ["a"] = some (src, mask) ∧ src ≠ [] :=
  ⟨(c10_empty_batch_fails model₀ ["a"]).1,
   (c10_empty_batch_fails model₀ ["a"]).2 (by decide)⟩

end NMTInfer
